import Mathlib

/-!
Shallow embedding of the PrintFlow scheduler core (src/PrintFlow.py):
the `PrintJob` data entity, the `Printer` worker state and its cycle
logic, and the `JobManager` dispatcher (queue, policy selection,
preemption, cancellation).  Threads are sequentialized: each Python
method that runs under the manager lock or the printer interrupt lock
becomes one Lean function on an explicit state, and the post-delay
half of `Printer.run_cycle` is a separate function so that control
flags changed during the simulated delay are honestly observable.
Python ints are `Int`; the GUI update queue is a list of events.
-/

set_option linter.unusedVariables false

/-- Scheduling policy, `JobManager.algorithm` in the source. -/
inductive Algo where
  | FCFS
  | SJF
  | SRTF
deriving DecidableEq, Repr

/-- Job status strings used by the source (`PrintJob.status`). -/
inductive JobStatus where
  | queued
  | printing
  | paused
  | completed
  | canceled
  | queuedPreempted
deriving DecidableEq, Repr

/-- The literal status string of the Python code for each status. -/
def statusStr : JobStatus → String
  | .queued => "Queued"
  | .printing => "Printing"
  | .paused => "Paused"
  | .completed => "Completed"
  | .canceled => "Canceled"
  | .queuedPreempted => "Queued (Preempted)"

/-- `PrintJob` from the source: identity, fixed page total, mutable
progress/remaining/status. -/
structure PrintJob where
  jobId : Nat
  fileName : String
  filePath : String
  pages : Int
  status : JobStatus
  progress : Int
  pagesRemaining : Int
deriving DecidableEq, Repr

/-- `PrintJob.__init__`: the uuid is externalized as `jid`. -/
def mkPrintJob (jid : Nat) (fileName filePath : String) (pages : Int) : PrintJob :=
  { jobId := jid, fileName := fileName, filePath := filePath, pages := pages,
    status := .queued, progress := 0, pagesRemaining := pages }

/-- `Printer` worker state: current job plus the externally set control
flags (`is_paused`, `shutdown_flag`, `preempt_with_job`,
`cancel_current_job`). -/
structure Printer where
  printerId : Nat
  printerName : String
  currentJob : Option PrintJob
  isPaused : Bool
  shutdownFlag : Bool
  preemptWithJob : Option PrintJob
  cancelCurrentJob : Bool
deriving DecidableEq, Repr

/-- `Printer.__init__`. -/
def mkPrinter (pid : Nat) (name : String) : Printer :=
  { printerId := pid, printerName := name, currentJob := none,
    isPaused := false, shutdownFlag := false,
    preemptWithJob := none, cancelCurrentJob := false }

/-- One message put on the GUI `update_queue` (timestamps dropped,
log text reduced to a fixed tag plus the mentioned job id). -/
inductive UpdateMsg where
  | logMsg (text : String) (jid : Option Nat)
  | algorithmChanged (a : Algo)
  | queueSnapshot (q : List PrintJob)
  | printerStatus (pid : Nat) (pname : String) (job : Option PrintJob) (status : String)
deriving DecidableEq, Repr

/-- `JobManager` state: pending queue, active policy, registered
printers (dict values in insertion order), and the update stream. -/
structure JobManager where
  jobQueue : List PrintJob
  algorithm : Algo
  printers : List Printer
  updates : List UpdateMsg
deriving DecidableEq, Repr

/-- `JobManager.__init__`. -/
def initialManager : JobManager :=
  { jobQueue := [], algorithm := .FCFS, printers := [], updates := [] }

/-- `send_update`: append one event to the update stream. -/
def sendUpdate (m : JobManager) (msg : UpdateMsg) : JobManager :=
  { m with updates := m.updates ++ [msg] }

/-- `log`: a log event. -/
def logM (m : JobManager) (text : String) (jid : Option Nat) : JobManager :=
  sendUpdate m (.logMsg text jid)

/-- `send_full_update`: emit a snapshot (copy) of the current queue. -/
def sendFullUpdate (m : JobManager) : JobManager :=
  sendUpdate m (.queueSnapshot m.jobQueue)

/-- Sum of `pages_remaining` over a job list
(`sum(j.pages_remaining for j in self.job_queue)`). -/
def sumRemaining (q : List PrintJob) : Int :=
  (q.map (fun j => j.pagesRemaining)).sum

/-- `avg_pages` of `auto_select_algorithm`, as an exact rational. -/
def meanRemaining (q : List PrintJob) : ℚ :=
  (sumRemaining q : ℚ) / (q.length : ℚ)

/-- The policy chosen by `auto_select_algorithm` from the queue:
empty or length at most 3 gives FCFS, otherwise the mean of remaining
pages decides (`avg <= 20` is `sum <= 20 * length` exactly). -/
def selectAlgo (q : List PrintJob) : Algo :=
  if q.length = 0 then .FCFS
  else if q.length ≤ 3 then .FCFS
  else if sumRemaining q ≤ 20 * (q.length : Int) then .SRTF
  else .SJF

/-- `auto_select_algorithm`: recompute the policy; on a change, log and
emit an `algorithm` event. -/
def autoSelectAlgorithm (m : JobManager) : JobManager :=
  let newAlgo := selectAlgo m.jobQueue
  if m.algorithm = newAlgo then m
  else
    { m with algorithm := newAlgo,
             updates := m.updates ++
               [.logMsg "Algorithm auto-switched" none, .algorithmChanged newAlgo] }

/-- Replace every registered printer carrying `pid` (ids are unique in
the source dict) using `f`. -/
def updatePrinter (ps : List Printer) (pid : Nat) (f : Printer → Printer) : List Printer :=
  ps.map (fun p => if p.printerId == pid then f p else p)

/-- Write back a mutated printer into the registry. -/
def setPrinter (m : JobManager) (p : Printer) : JobManager :=
  { m with printers := updatePrinter m.printers p.printerId (fun _ => p) }

/-- Look up a printer by id (`self.printers[...]`). -/
def findPrinter (m : JobManager) (pid : Nat) : Option Printer :=
  m.printers.find? (fun p => p.printerId == pid)

/-- `deque.remove` by object identity, modelled as removal of the first
job with the given id; `none` models the `ValueError` when absent. -/
def removeJobById (q : List PrintJob) (jid : Nat) : Option (List PrintJob) :=
  match q with
  | [] => none
  | j :: rest =>
    if j.jobId == jid then some rest
    else (removeJobById rest jid).map (fun r => j :: r)

/-- The scan of `check_for_preemption`: walk the printers carrying the
best target so far and the running maximum (initially the new job's
remaining count); a printer with a current job, not paused, whose job
has strictly more remaining than the running maximum becomes the new
best. -/
def bestTargetAux : List Printer → Option Printer → Int → Option Printer × Int
  | [], best, maxR => (best, maxR)
  | p :: rest, best, maxR =>
    match p.currentJob with
    | some j =>
      if p.isPaused then bestTargetAux rest best maxR
      else if maxR < j.pagesRemaining then bestTargetAux rest (some p) j.pagesRemaining
      else bestTargetAux rest best maxR
    | none => bestTargetAux rest best maxR

/-- `check_for_preemption`: find the busiest actively printing worker;
if one beats the new job, log, remove the new job from the queue and
hand it to that worker as the preemption payload; a failed removal
(the race) is logged and otherwise ignored. -/
def checkForPreemption (newJob : PrintJob) (m : JobManager) : JobManager :=
  match (bestTargetAux m.printers none newJob.pagesRemaining).1 with
  | none => m
  | some target =>
    let m1 := logM m "SRTF PREEMPTION: new job is shorter" (some newJob.jobId)
    match removeJobById m1.jobQueue newJob.jobId with
    | some q =>
      let ps := updatePrinter m1.printers target.printerId
        (fun p => { p with preemptWithJob := some newJob })
      { m1 with jobQueue := q, printers := ps }
    | none => logM m1 "SRTF INFO: job already taken" (some newJob.jobId)

/-- `add_job_to_queue`: re-queued preempted jobs go to the head, new
jobs to the tail; under SRTF a genuinely new job triggers the
preemption check; the policy is then re-evaluated and a queue snapshot
emitted. -/
def addJobToQueue (job : PrintJob) (preempted : Bool) (m : JobManager) : JobManager :=
  let m1 :=
    if preempted then
      logM { m with jobQueue := job :: m.jobQueue } "Re-queued (Preempted)" (some job.jobId)
    else
      logM { m with jobQueue := m.jobQueue ++ [job] } "Added to queue" (some job.jobId)
  let m2 :=
    if m.algorithm = Algo.SRTF ∧ preempted = false then checkForPreemption job m1 else m1
  sendFullUpdate (autoSelectAlgorithm m2)

/-- The SJF/SRTF selection of `get_next_job`: `sorted(...)[0]` of a
stable sort by remaining pages, i.e. the earliest job holding the
minimum, returned together with the queue with that job removed. -/
def extractMinRemaining : List PrintJob → Option (PrintJob × List PrintJob)
  | [] => none
  | j :: rest =>
    match extractMinRemaining rest with
    | none => some (j, [])
    | some (mj, rest') =>
      if j.pagesRemaining ≤ mj.pagesRemaining then some (j, rest)
      else some (mj, j :: rest')

/-- `get_next_job`: re-evaluate the policy, then pop the head (FCFS) or
the earliest minimum-remaining job (SJF/SRTF), emitting a snapshot
when a job was removed. -/
def getNextJob (printerId : Nat) (m : JobManager) : Option PrintJob × JobManager :=
  let m1 := autoSelectAlgorithm m
  match m1.jobQueue with
  | [] => (none, m1)
  | j :: rest =>
    match m1.algorithm with
    | .FCFS => (some j, sendFullUpdate { m1 with jobQueue := rest })
    | _ =>
      match extractMinRemaining (j :: rest) with
      | some (mj, q) => (some mj, sendFullUpdate { m1 with jobQueue := q })
      | none => (none, m1)

/-- Which branch `cancel_job` took; `removedPending` carries the
removed job object exactly as the call leaves it. -/
inductive CancelOutcome where
  | removedPending (j : PrintJob)
  | signaledPrinter (pid : Nat)
  | notFound
deriving DecidableEq, Repr

/-- `cancel_job`: remove a pending job from the queue (no field of the
job is written), else set the cancel flag of the printer holding it,
else only log the not-found condition. -/
def cancelJob (jid : Nat) (m : JobManager) : JobManager × CancelOutcome :=
  match m.jobQueue.find? (fun j => j.jobId == jid) with
  | some j =>
    let q := (removeJobById m.jobQueue jid).getD m.jobQueue
    (sendFullUpdate (logM { m with jobQueue := q } "Canceled: removed from main queue" (some jid)),
     .removedPending j)
  | none =>
    match m.printers.find? (fun p =>
        match p.currentJob with
        | some j => j.jobId == jid
        | none => false) with
    | some p =>
      let ps := updatePrinter m.printers p.printerId (fun q => { q with cancelCurrentJob := true })
      (logM { m with printers := ps } "Signaling printer to cancel current job" (some jid),
       .signaledPrinter p.printerId)
    | none => (logM m "Could not find job to cancel" (some jid), .notFound)

/-- `add_printer`: register (dict insertion order) and log. -/
def addPrinter (m : JobManager) (p : Printer) : JobManager :=
  logM { m with printers := m.printers ++ [p] } "Printer online" none

/-- The dynamic status string of `send_status_update`. -/
def printerStatusStr (p : Printer) : String :=
  match p.currentJob with
  | some j => statusStr j.status
  | none => if p.isPaused then "Paused" else "Idle"

/-- `send_status_update`: emit this printer's status snapshot. -/
def sendStatusUpdate (p : Printer) (m : JobManager) : JobManager :=
  sendUpdate m (.printerStatus p.printerId p.printerName p.currentJob (printerStatusStr p))

/-- The state change of `toggle_pause` on the printer itself: flip the
flag and move an attached job between Printing and Paused. -/
def togglePausePr (p : Printer) : Printer :=
  if p.isPaused then
    { p with isPaused := false,
             currentJob := p.currentJob.map (fun j => { j with status := .printing }) }
  else
    { p with isPaused := true,
             currentJob := p.currentJob.map (fun j => { j with status := .paused }) }

/-- `toggle_pause` on the system: apply the flip to the printer with
this id, log Resumed/Paused and emit the status update. -/
def togglePause (pid : Nat) (m : JobManager) : JobManager :=
  match findPrinter m pid with
  | none => m
  | some p =>
    let p1 := togglePausePr p
    sendStatusUpdate p1
      (logM (setPrinter m p1) (if p.isPaused then "Resumed" else "Paused") none)

/-- `set_cancel_flag` on the printer with this id. -/
def setCancelFlag (pid : Nat) (m : JobManager) : JobManager :=
  let ps := updatePrinter m.printers pid (fun p => { p with cancelCurrentJob := true })
  { m with printers := ps }

/-- What the post-delay half of `run_cycle` did. -/
inductive CycleOutcome where
  | interrupted
  | noJob
  | canceledJob (j : PrintJob)
  | preemptedJob (old : PrintJob) (newJ : PrintJob)
  | completedJob (j : PrintJob)
  | continued
deriving DecidableEq, Repr

/-- The part of `run_cycle` after the simulated delay (source lines
138-167): bail out untouched if pause or shutdown fired, otherwise
count the page, then run the checkpoint — cancel first (detach, clear
the cancel flag, status update), else preemption (re-queue the old job
at the head via `add_job_to_queue`, attach the payload as Printing,
clear the payload), else complete when progress reached the total.
The outcome carries the final value of any job the printer dropped. -/
def runCycleFinish (pid : Nat) (m : JobManager) : JobManager × CycleOutcome :=
  match findPrinter m pid with
  | none => (m, .noJob)
  | some p =>
    if p.isPaused || p.shutdownFlag then (m, .interrupted)
    else
      match p.currentJob with
      | none => (m, .noJob)
      | some job =>
        let job1 := { job with progress := job.progress + 1,
                               pagesRemaining := job.pagesRemaining - 1 }
        if p.cancelCurrentJob then
          let p1 := { p with currentJob := none, cancelCurrentJob := false }
          (sendStatusUpdate p1 (setPrinter (logM m "Canceled" (some job.jobId)) p1),
           .canceledJob { job1 with status := .canceled })
        else
          match p.preemptWithJob with
          | some np =>
            let oldJ := { job1 with status := .queuedPreempted }
            let m1 := addJobToQueue oldJ true (logM m "PREEMPTED" (some np.jobId))
            let p1 := { p with currentJob := some { np with status := .printing },
                               preemptWithJob := none }
            (setPrinter m1 p1, .preemptedJob oldJ { np with status := .printing })
          | none =>
            if job1.pages ≤ job1.progress then
              let p1 := { p with currentJob := none }
              (sendStatusUpdate p1 (setPrinter (logM m "Finished" (some job.jobId)) p1),
               .completedJob { job1 with status := .completed })
            else
              (setPrinter m { p with currentJob := some job1 }, .continued)

/-- The pre-delay part of `run_cycle` (source lines 113-134): the
pause branch, the idle branch that may acquire a job and mark it
Printing, and the status report before the delay.  The Bool tells
whether control reached the simulated delay. -/
def runCycleStart (pid : Nat) (m : JobManager) : JobManager × Bool :=
  match findPrinter m pid with
  | none => (m, false)
  | some p =>
    if p.isPaused then
      let p1 := { p with currentJob := p.currentJob.map (fun j => { j with status := .paused }) }
      (sendStatusUpdate p1 (setPrinter m p1), false)
    else
      match p.currentJob with
      | some _ => (sendStatusUpdate p m, true)
      | none =>
        let m1 := sendStatusUpdate p m
        if p.shutdownFlag then (m1, false)
        else
          match getNextJob p.printerId m1 with
          | (some j, m2) =>
            let p1 := { p with currentJob := some { j with status := .printing } }
            (sendStatusUpdate p1 (logM (setPrinter m2 p1) "Started" (some j.jobId)), true)
          | (none, m2) => (m2, false)

/-- One full `run_cycle` with no flag changes during the delay. -/
def runCycle (pid : Nat) (m : JobManager) : JobManager :=
  let r := runCycleStart pid m
  if r.2 then (runCycleFinish pid r.1).1 else r.1

/-- The post-unit value of the job the cycle worked on: the dropped or
re-queued job recorded in the outcome, or the job still attached. -/
def workedJob (pid : Nat) (r : JobManager × CycleOutcome) : Option PrintJob :=
  match r.2 with
  | .canceledJob j => some j
  | .preemptedJob old _ => some old
  | .completedJob j => some j
  | .continued => (findPrinter r.1 pid).bind (fun p => p.currentJob)
  | _ => none

/-! ### A concrete system run

Two printers, two long jobs they pick up, four filler jobs that move
the policy to SRTF, two one-page jobs that each become a preemption
payload, a cancel of each printer's running job (which clears only the
cancel flag, leaving the payload set), and finally a one-page job that
is preempted twice by the stale payloads. -/

def jA1 : PrintJob := mkPrintJob 101 "A1.pdf" "/a1" 50

def jA2 : PrintJob := mkPrintJob 102 "A2.pdf" "/a2" 50

def jF1 : PrintJob := mkPrintJob 111 "F1.pdf" "/f1" 10

def jF2 : PrintJob := mkPrintJob 112 "F2.pdf" "/f2" 10

def jF3 : PrintJob := mkPrintJob 113 "F3.pdf" "/f3" 10

def jF4 : PrintJob := mkPrintJob 114 "F4.pdf" "/f4" 10

def jB1 : PrintJob := mkPrintJob 121 "B1.pdf" "/b1" 1

def jB2 : PrintJob := mkPrintJob 122 "B2.pdf" "/b2" 1

def jC : PrintJob := mkPrintJob 131 "C.pdf" "/c" 1

/-- The run described above, as a sequence of dispatcher and worker
operations (each one a lock-protected Python call). -/
def traceState : JobManager :=
  let m0 := addPrinter (addPrinter initialManager (mkPrinter 1 "P1")) (mkPrinter 2 "P2")
  let m1 := addJobToQueue jA1 false m0
  let m2 := runCycle 1 m1
  let m3 := addJobToQueue jA2 false m2
  let m4 := runCycle 2 m3
  let m5 := addJobToQueue jF1 false m4
  let m6 := addJobToQueue jF2 false m5
  let m7 := addJobToQueue jF3 false m6
  let m8 := addJobToQueue jF4 false m7
  let m9 := addJobToQueue jB1 false m8
  let m10 := (cancelJob 101 m9).1
  let m11 := runCycle 1 m10
  let m12 := addJobToQueue jB2 false m11
  let m13 := (cancelJob 102 m12).1
  let m14 := runCycle 2 m13
  let m15 := addJobToQueue jC false m14
  let m16 := runCycle 1 m15
  runCycle 2 m16

/-- Claim C4: the progress-plus-remaining-equals-total half survives
this run, but `pages_remaining` goes negative: the cancel checkpoint
clears only the cancel flag and leaves the preemption payload set, so
a later one-page job is preempted at zero pages remaining, re-queued,
decremented again, and re-queued at minus one — the head of the final
pending queue has `pages_remaining = -1`. -/
theorem stalePayload_negative_remaining :
    traceState.jobQueue.head?.map
        (fun j => (j.jobId, j.pages, j.progress, j.pagesRemaining, j.status))
      = some (131, 1, 2, -1, JobStatus.queuedPreempted) := by
  decide

/-! ### Basic lemmas about the dispatcher state transformers -/

theorem autoSelect_algorithm (m : JobManager) :
    (autoSelectAlgorithm m).algorithm = selectAlgo m.jobQueue := by
  by_cases h : m.algorithm = selectAlgo m.jobQueue <;> simp [autoSelectAlgorithm, h]

theorem autoSelect_jobQueue (m : JobManager) :
    (autoSelectAlgorithm m).jobQueue = m.jobQueue := by
  by_cases h : m.algorithm = selectAlgo m.jobQueue <;> simp [autoSelectAlgorithm, h]

theorem autoSelect_printers (m : JobManager) :
    (autoSelectAlgorithm m).printers = m.printers := by
  by_cases h : m.algorithm = selectAlgo m.jobQueue <;> simp [autoSelectAlgorithm, h]

theorem sendFullUpdate_jobQueue (m : JobManager) :
    (sendFullUpdate m).jobQueue = m.jobQueue := rfl

theorem sendFullUpdate_algorithm (m : JobManager) :
    (sendFullUpdate m).algorithm = m.algorithm := rfl

theorem sendFullUpdate_printers (m : JobManager) :
    (sendFullUpdate m).printers = m.printers := rfl

theorem meanRemaining_le_iff (q : List PrintJob) (h : 0 < q.length) :
    meanRemaining q ≤ 20 ↔ sumRemaining q ≤ 20 * (q.length : Int) := by
  unfold meanRemaining
  rw [div_le_iff₀ (by exact_mod_cast h)]
  constructor
  · intro hle
    exact_mod_cast hle
  · intro hle
    exact_mod_cast hle

/-- Claim C1: the policy selected by the dispatcher's re-evaluation is
a pure function of the pending queue's length and its mean remaining
pages: length 0 to 3 gives FCFS; length above 3 gives SRTF when the
mean is at most 20 and SJF when it is above 20. -/
theorem policy_pure_of_length_and_mean (m : JobManager) :
    (autoSelectAlgorithm m).algorithm = selectAlgo m.jobQueue
    ∧ (∀ q : List PrintJob, q.length = m.jobQueue.length →
        sumRemaining q = sumRemaining m.jobQueue → selectAlgo q = selectAlgo m.jobQueue)
    ∧ (m.jobQueue.length ≤ 3 → selectAlgo m.jobQueue = Algo.FCFS)
    ∧ (3 < m.jobQueue.length →
        (meanRemaining m.jobQueue ≤ 20 → selectAlgo m.jobQueue = Algo.SRTF)
        ∧ (20 < meanRemaining m.jobQueue → selectAlgo m.jobQueue = Algo.SJF)) := by
  refine ⟨autoSelect_algorithm m, ?_, ?_, ?_⟩
  · intro q hlen hsum
    unfold selectAlgo
    rw [hlen, hsum]
  · intro hle
    unfold selectAlgo
    split <;> first | rfl | omega
  · intro hgt
    have hpos : 0 < m.jobQueue.length := by omega
    constructor
    · intro hmean
      have hsum := (meanRemaining_le_iff m.jobQueue hpos).mp hmean
      unfold selectAlgo
      rw [if_neg (by omega), if_neg (by omega), if_pos hsum]
    · intro hmean
      have hsum : ¬ sumRemaining m.jobQueue ≤ 20 * (m.jobQueue.length : Int) := by
        intro hc
        exact absurd ((meanRemaining_le_iff m.jobQueue hpos).mpr hc) (not_le.mpr hmean)
      unfold selectAlgo
      rw [if_neg (by omega), if_neg (by omega), if_neg hsum]

/-- Witness for C1: a queue of four ten-page jobs has mean 10, so the
selection yields SRTF. -/
theorem policy_pure_of_length_and_mean_witness :
    selectAlgo [jF1, jF2, jF3, jF4] = Algo.SRTF :=
  ((policy_pure_of_length_and_mean
      { jobQueue := [jF1, jF2, jF3, jF4], algorithm := .FCFS,
        printers := [], updates := [] }).2.2.2 (by decide)).1
    (by norm_num [meanRemaining, sumRemaining, jF1, jF2, jF3, jF4, mkPrintJob])

theorem addJobToQueue_printers_preempted (job : PrintJob) (m : JobManager) :
    (addJobToQueue job true m).printers = m.printers := by
  simp [addJobToQueue, sendFullUpdate_printers, autoSelect_printers, logM, sendUpdate]

theorem addJobToQueue_queue_preempted (job : PrintJob) (m : JobManager) :
    (addJobToQueue job true m).jobQueue = job :: m.jobQueue := by
  simp [addJobToQueue, sendFullUpdate_jobQueue, autoSelect_jobQueue, logM, sendUpdate]

/-- Claim C8: submitting re-queues a preempted job at the head with
its fields (in particular `pages_remaining`) untouched, appends a new
job at the tail, always re-evaluates the policy afterwards, and runs
the preemption check exactly when the policy on entry is SRTF and the
submission is not a re-queue. -/
theorem submit_spec (job : PrintJob) (preempted : Bool) (m : JobManager) :
    (preempted = true →
      addJobToQueue job preempted m
        = sendFullUpdate (autoSelectAlgorithm
            (logM { m with jobQueue := job :: m.jobQueue } "Re-queued (Preempted)" (some job.jobId)))
      ∧ (addJobToQueue job preempted m).jobQueue = job :: m.jobQueue)
    ∧ (preempted = false → m.algorithm ≠ Algo.SRTF →
      addJobToQueue job preempted m
        = sendFullUpdate (autoSelectAlgorithm
            (logM { m with jobQueue := m.jobQueue ++ [job] } "Added to queue" (some job.jobId)))
      ∧ (addJobToQueue job preempted m).jobQueue = m.jobQueue ++ [job])
    ∧ (preempted = false → m.algorithm = Algo.SRTF →
      addJobToQueue job preempted m
        = sendFullUpdate (autoSelectAlgorithm
            (checkForPreemption job
              (logM { m with jobQueue := m.jobQueue ++ [job] } "Added to queue" (some job.jobId)))))
    ∧ (addJobToQueue job preempted m).algorithm
        = selectAlgo (addJobToQueue job preempted m).jobQueue := by
  refine ⟨?_, ?_, ?_, ?_⟩
  · intro hp
    subst hp
    refine ⟨?_, addJobToQueue_queue_preempted job m⟩
    simp [addJobToQueue]
  · intro hp halgo
    subst hp
    constructor
    · simp [addJobToQueue, halgo]
    · simp [addJobToQueue, halgo, sendFullUpdate_jobQueue, autoSelect_jobQueue, logM, sendUpdate]
  · intro hp halgo
    subst hp
    simp [addJobToQueue, halgo]
  · unfold addJobToQueue
    rw [sendFullUpdate_algorithm, sendFullUpdate_jobQueue, autoSelect_algorithm, autoSelect_jobQueue]

/-- Witness for C8: a re-queued preempted job lands at the head of the
queue unchanged. -/
theorem submit_spec_witness :
    (addJobToQueue jB1 true initialManager).jobQueue = [jB1] :=
  ((submit_spec jB1 true initialManager).1 rfl).2

/-! ### Lemmas about the preemption target scan -/

theorem bestTargetAux_le (ps : List Printer) :
    ∀ best maxR, maxR ≤ (bestTargetAux ps best maxR).2 := by
  induction ps with
  | nil => intro best maxR; simp [bestTargetAux]
  | cons p rest ih =>
    intro best maxR
    unfold bestTargetAux
    cases hc : p.currentJob with
    | none => exact ih best maxR
    | some j =>
      cases hp : p.isPaused with
      | true => simpa using ih best maxR
      | false =>
        by_cases hlt : maxR < j.pagesRemaining
        · simpa [hlt] using le_trans hlt.le (ih (some p) j.pagesRemaining)
        · simpa [hlt] using ih best maxR

theorem bestTargetAux_bound (ps : List Printer) :
    ∀ best maxR, ∀ q ∈ ps, ∀ j, q.currentJob = some j → q.isPaused = false →
      j.pagesRemaining ≤ (bestTargetAux ps best maxR).2 := by
  induction ps with
  | nil => intro _ _ q hq; cases hq
  | cons p rest ih =>
    intro best maxR q hq j hj hqp
    rcases List.mem_cons.mp hq with rfl | hmem
    · unfold bestTargetAux
      rw [hj, hqp]
      by_cases hlt : maxR < j.pagesRemaining
      · simpa [hlt] using bestTargetAux_le rest (some q) j.pagesRemaining
      · simpa [hlt] using le_trans (not_lt.mp hlt) (bestTargetAux_le rest best maxR)
    · unfold bestTargetAux
      cases hc : p.currentJob with
      | none => exact ih best maxR q hmem j hj hqp
      | some k =>
        cases hp : p.isPaused with
        | true => simpa using ih best maxR q hmem j hj hqp
        | false =>
          by_cases hlt : maxR < k.pagesRemaining
          · simpa [hlt] using ih (some p) k.pagesRemaining q hmem j hj hqp
          · simpa [hlt] using ih best maxR q hmem j hj hqp

theorem bestTargetAux_some (ps : List Printer) :
    ∀ best maxR t, (bestTargetAux ps best maxR).1 = some t →
      (best = some t ∧ (bestTargetAux ps best maxR).2 = maxR)
      ∨ (t ∈ ps ∧ t.isPaused = false ∧ ∃ j, t.currentJob = some j
          ∧ j.pagesRemaining = (bestTargetAux ps best maxR).2
          ∧ maxR < j.pagesRemaining) := by
  induction ps with
  | nil =>
    intro best maxR t h
    exact Or.inl ⟨by simpa [bestTargetAux] using h, rfl⟩
  | cons p rest ih =>
    intro best maxR t h
    unfold bestTargetAux at h ⊢
    cases hc : p.currentJob with
    | none =>
      rw [hc] at h
      rcases ih best maxR t h with ⟨h1, h2⟩ | ⟨h1, h2, j, h3, h4, h5⟩
      · exact Or.inl ⟨h1, h2⟩
      · exact Or.inr ⟨List.mem_cons_of_mem p h1, h2, j, h3, h4, h5⟩
    | some k =>
      rw [hc] at h
      cases hp : p.isPaused with
      | true =>
        rw [hp] at h
        simp only [if_true] at h
        rcases ih best maxR t h with ⟨h1, h2⟩ | ⟨h1, h2, j, h3, h4, h5⟩
        · exact Or.inl ⟨h1, by simpa using h2⟩
        · exact Or.inr ⟨List.mem_cons_of_mem p h1, h2, j, h3, by simpa using h4, h5⟩
      | false =>
        rw [hp] at h
        simp only [Bool.false_eq_true, if_false] at h
        by_cases hlt : maxR < k.pagesRemaining
        · rw [if_pos hlt] at h
          rcases ih (some p) k.pagesRemaining t h with ⟨h1, h2⟩ | ⟨h1, h2, j, h3, h4, h5⟩
          · refine Or.inr ⟨?_, ?_, k, ?_, ?_, ?_⟩
            · rw [Option.some_inj.mp h1]; exact List.mem_cons_self t rest
            · rw [← Option.some_inj.mp h1]; exact hp
            · rw [← Option.some_inj.mp h1]; exact hc
            · simpa [hc, hp, hlt] using h2.symm
            · exact hlt
          · refine Or.inr ⟨List.mem_cons_of_mem p h1, h2, j, h3, ?_, ?_⟩
            · simpa [hc, hp, hlt] using h4
            · exact lt_trans hlt h5
        · rw [if_neg hlt] at h
          rcases ih best maxR t h with ⟨h1, h2⟩ | ⟨h1, h2, j, h3, h4, h5⟩
          · exact Or.inl ⟨h1, by simpa [hc, hp, hlt] using h2⟩
          · exact Or.inr ⟨List.mem_cons_of_mem p h1, h2, j, h3, by simpa [hc, hp, hlt] using h4, h5⟩

theorem bestTargetAux_some_stays (ps : List Printer) :
    ∀ p maxR, ∃ t, (bestTargetAux ps (some p) maxR).1 = some t := by
  induction ps with
  | nil => intro p maxR; exact ⟨p, rfl⟩
  | cons q rest ih =>
    intro p maxR
    unfold bestTargetAux
    cases hc : q.currentJob with
    | none => exact ih p maxR
    | some k =>
      cases hp : q.isPaused with
      | true => simpa using ih p maxR
      | false =>
        by_cases hlt : maxR < k.pagesRemaining
        · simpa [hlt] using ih q k.pagesRemaining
        · simpa [hlt] using ih p maxR

theorem bestTargetAux_none (ps : List Printer) :
    ∀ maxR, (bestTargetAux ps none maxR).1 = none →
      ∀ q ∈ ps, ∀ j, q.currentJob = some j → q.isPaused = false →
        j.pagesRemaining ≤ maxR := by
  induction ps with
  | nil => intro _ _ q hq; cases hq
  | cons p rest ih =>
    intro maxR h q hq j hj hqp
    rcases List.mem_cons.mp hq with rfl | hmem
    · unfold bestTargetAux at h
      simp only [hj, hqp, Bool.false_eq_true, if_false] at h
      by_cases hlt : maxR < j.pagesRemaining
      · rw [if_pos hlt] at h
        obtain ⟨t, ht⟩ := bestTargetAux_some_stays rest q j.pagesRemaining
        rw [ht] at h
        cases h
      · exact not_lt.mp hlt
    · unfold bestTargetAux at h
      cases hc : p.currentJob with
      | none =>
        rw [hc] at h
        exact ih maxR h q hmem j hj hqp
      | some k =>
        rw [hc] at h
        cases hp : p.isPaused with
        | true =>
          rw [hp] at h
          simp only [if_true] at h
          exact ih maxR h q hmem j hj hqp
        | false =>
          rw [hp] at h
          simp only [Bool.false_eq_true, if_false] at h
          by_cases hlt : maxR < k.pagesRemaining
          · rw [if_pos hlt] at h
            obtain ⟨t, ht⟩ := bestTargetAux_some_stays rest p k.pagesRemaining
            rw [ht] at h
            cases h
          · rw [if_neg hlt] at h
            exact ih maxR h q hmem j hj hqp

theorem removeJobById_of_mem (q : List PrintJob) (jid : Nat) :
    jid ∈ q.map (fun j => j.jobId) → ∃ r, removeJobById q jid = some r := by
  induction q with
  | nil => intro h; simp at h
  | cons j rest ih =>
    intro h
    unfold removeJobById
    by_cases hj : j.jobId = jid
    · exact ⟨rest, by simp [hj]⟩
    · have : jid ∈ rest.map (fun k => k.jobId) := by
        rcases List.mem_map.mp h with ⟨k, hk, hkid⟩
        rcases List.mem_cons.mp hk with rfl | hkm
        · exact absurd hkid hj
        · exact List.mem_map.mpr ⟨k, hkm, hkid⟩
      obtain ⟨r, hr⟩ := ih this
      refine ⟨j :: r, ?_⟩
      simp [hj, hr, beq_iff_eq]

theorem removeJobById_of_not_mem (q : List PrintJob) (jid : Nat) :
    jid ∉ q.map (fun j => j.jobId) → removeJobById q jid = none := by
  induction q with
  | nil => intro _; rfl
  | cons j rest ih =>
    intro h
    have hj : ¬ j.jobId = jid := fun hc => h (by simp [hc])
    have hrest : jid ∉ rest.map (fun k => k.jobId) := fun hc => h (by simp [hc])
    unfold removeJobById
    simp [hj, beq_iff_eq, ih hrest]

theorem checkForPreemption_no_target (newJob : PrintJob) (m : JobManager)
    (hbt : (bestTargetAux m.printers none newJob.pagesRemaining).1 = none) :
    checkForPreemption newJob m = m := by
  unfold checkForPreemption
  rw [hbt]

theorem checkForPreemption_eq_of_target (newJob : PrintJob) (m : JobManager)
    (t : Printer) (q' : List PrintJob)
    (hbt : (bestTargetAux m.printers none newJob.pagesRemaining).1 = some t)
    (hrm : removeJobById m.jobQueue newJob.jobId = some q') :
    checkForPreemption newJob m
      = { jobQueue := q',
          algorithm := m.algorithm,
          printers := updatePrinter m.printers t.printerId
            (fun p => { p with preemptWithJob := some newJob }),
          updates := m.updates
            ++ [UpdateMsg.logMsg "SRTF PREEMPTION: new job is shorter" (some newJob.jobId)] } := by
  unfold checkForPreemption
  rw [hbt]
  dsimp only [logM, sendUpdate]
  rw [hrm]

theorem checkForPreemption_race_eq (newJob : PrintJob) (m : JobManager) (t : Printer)
    (hbt : (bestTargetAux m.printers none newJob.pagesRemaining).1 = some t)
    (hrm : removeJobById m.jobQueue newJob.jobId = none) :
    checkForPreemption newJob m
      = { m with updates := m.updates
            ++ [UpdateMsg.logMsg "SRTF PREEMPTION: new job is shorter" (some newJob.jobId),
                UpdateMsg.logMsg "SRTF INFO: job already taken" (some newJob.jobId)] } := by
  unfold checkForPreemption
  rw [hbt]
  dsimp only [logM, sendUpdate]
  rw [hrm]
  simp

/-- Claim C2: on a new submission under SRTF, the check targets the
actively printing (non-paused) worker whose current job has the
largest remaining page count; the new job is removed from the queue
and handed to exactly that worker as a preemption payload precisely
when that largest count strictly exceeds the new job's remaining
count, and otherwise the check changes nothing and the job stays
queued. -/
theorem preemption_check_spec (newJob : PrintJob) (m : JobManager)
    (hq : newJob.jobId ∈ m.jobQueue.map (fun j => j.jobId)) :
    ((∀ p ∈ m.printers, ∀ j, p.currentJob = some j → p.isPaused = false →
        j.pagesRemaining ≤ newJob.pagesRemaining) →
      checkForPreemption newJob m = m)
    ∧ ((∃ p ∈ m.printers, ∃ j, p.currentJob = some j ∧ p.isPaused = false ∧
          newJob.pagesRemaining < j.pagesRemaining) →
      ∃ t ∈ m.printers, ∃ j, t.currentJob = some j ∧ t.isPaused = false ∧
        newJob.pagesRemaining < j.pagesRemaining ∧
        (∀ p ∈ m.printers, ∀ k, p.currentJob = some k → p.isPaused = false →
          k.pagesRemaining ≤ j.pagesRemaining) ∧
        some (checkForPreemption newJob m).jobQueue = removeJobById m.jobQueue newJob.jobId ∧
        { t with preemptWithJob := some newJob } ∈ (checkForPreemption newJob m).printers ∧
        (∀ p ∈ m.printers, p.printerId ≠ t.printerId →
          p ∈ (checkForPreemption newJob m).printers)) := by
  constructor
  · intro hall
    cases hbt : (bestTargetAux m.printers none newJob.pagesRemaining).1 with
    | none => exact checkForPreemption_no_target newJob m hbt
    | some t =>
      exfalso
      rcases bestTargetAux_some m.printers none newJob.pagesRemaining t hbt with
        ⟨h1, _⟩ | ⟨h1, h2, j, h3, h4, h5⟩
      · cases h1
      · exact absurd h5 (not_lt.mpr (hall t h1 j h3 h2))
  · intro hex
    cases hbt : (bestTargetAux m.printers none newJob.pagesRemaining).1 with
    | none =>
      exfalso
      rcases hex with ⟨p, hp, j, hj, hpa, hlt⟩
      exact absurd hlt
        (not_lt.mpr (bestTargetAux_none m.printers newJob.pagesRemaining hbt p hp j hj hpa))
    | some t =>
      rcases bestTargetAux_some m.printers none newJob.pagesRemaining t hbt with
        ⟨h1, _⟩ | ⟨h1, h2, j, h3, h4, h5⟩
      · cases h1
      · obtain ⟨q', hrm⟩ := removeJobById_of_mem m.jobQueue newJob.jobId hq
        have heq := checkForPreemption_eq_of_target newJob m t q' hbt hrm
        refine ⟨t, h1, j, h3, h2, h5, ?_, ?_, ?_, ?_⟩
        · intro p hp k hk hkp
          calc k.pagesRemaining
              ≤ (bestTargetAux m.printers none newJob.pagesRemaining).2 :=
                bestTargetAux_bound m.printers none newJob.pagesRemaining p hp k hk hkp
            _ = j.pagesRemaining := h4.symm
        · rw [heq, hrm]
        · rw [heq]
          exact List.mem_map.mpr ⟨t, h1, by simp⟩
        · intro p hp hne
          rw [heq]
          refine List.mem_map.mpr ⟨p, hp, ?_⟩
          simp [beq_iff_eq, hne]

/-- Witness for C2: a worker printing a 50-page job is preempted by a
newly submitted 1-page job. -/
theorem preemption_check_spec_witness :
    ∃ t ∈ ({ jobQueue := [jB1], algorithm := Algo.SRTF,
             printers := [{ mkPrinter 1 "P1" with
                            currentJob := some { jA1 with status := .printing } }],
             updates := [] } : JobManager).printers,
      ∃ j, t.currentJob = some j ∧ t.isPaused = false ∧
        jB1.pagesRemaining < j.pagesRemaining ∧
        (∀ p ∈ ({ jobQueue := [jB1], algorithm := Algo.SRTF,
                  printers := [{ mkPrinter 1 "P1" with
                                 currentJob := some { jA1 with status := .printing } }],
                  updates := [] } : JobManager).printers,
          ∀ k, p.currentJob = some k → p.isPaused = false →
            k.pagesRemaining ≤ j.pagesRemaining) ∧
        some (checkForPreemption jB1
            { jobQueue := [jB1], algorithm := Algo.SRTF,
              printers := [{ mkPrinter 1 "P1" with
                             currentJob := some { jA1 with status := .printing } }],
              updates := [] }).jobQueue
          = removeJobById [jB1] jB1.jobId ∧
        { t with preemptWithJob := some jB1 } ∈ (checkForPreemption jB1
            { jobQueue := [jB1], algorithm := Algo.SRTF,
              printers := [{ mkPrinter 1 "P1" with
                             currentJob := some { jA1 with status := .printing } }],
              updates := [] }).printers ∧
        (∀ p ∈ ({ jobQueue := [jB1], algorithm := Algo.SRTF,
                  printers := [{ mkPrinter 1 "P1" with
                                 currentJob := some { jA1 with status := .printing } }],
                  updates := [] } : JobManager).printers,
          p.printerId ≠ t.printerId →
            p ∈ (checkForPreemption jB1
                { jobQueue := [jB1], algorithm := Algo.SRTF,
                  printers := [{ mkPrinter 1 "P1" with
                                 currentJob := some { jA1 with status := .printing } }],
                  updates := [] }).printers) :=
  (preemption_check_spec jB1
      { jobQueue := [jB1], algorithm := Algo.SRTF,
        printers := [{ mkPrinter 1 "P1" with
                       currentJob := some { jA1 with status := .printing } }],
        updates := [] } (by decide)).2
    ⟨{ mkPrinter 1 "P1" with currentJob := some { jA1 with status := .printing } },
      by simp, { jA1 with status := .printing }, rfl, rfl, by decide⟩

/-- Claim C9: when the preemption check would target a worker but the
new job is no longer in the pending queue (taken by a concurrent
dequeue), the check only logs the informational race message: the
queue, the printers (so no preemption payload) and the policy are all
unchanged, and the function returns normally. -/
theorem race_lost_spec (newJob : PrintJob) (m : JobManager)
    (hq : newJob.jobId ∉ m.jobQueue.map (fun j => j.jobId))
    (htar : ∃ p ∈ m.printers, ∃ j, p.currentJob = some j ∧ p.isPaused = false ∧
        newJob.pagesRemaining < j.pagesRemaining) :
    (checkForPreemption newJob m).jobQueue = m.jobQueue
    ∧ (checkForPreemption newJob m).printers = m.printers
    ∧ (checkForPreemption newJob m).algorithm = m.algorithm
    ∧ (checkForPreemption newJob m).updates
        = m.updates
          ++ [UpdateMsg.logMsg "SRTF PREEMPTION: new job is shorter" (some newJob.jobId),
              UpdateMsg.logMsg "SRTF INFO: job already taken" (some newJob.jobId)] := by
  have hrm : removeJobById m.jobQueue newJob.jobId = none :=
    removeJobById_of_not_mem m.jobQueue newJob.jobId hq
  cases hbt : (bestTargetAux m.printers none newJob.pagesRemaining).1 with
  | none =>
    exfalso
    rcases htar with ⟨p, hp, j, hj, hpa, hlt⟩
    exact absurd hlt
      (not_lt.mpr (bestTargetAux_none m.printers newJob.pagesRemaining hbt p hp j hj hpa))
  | some t =>
    have heq := checkForPreemption_race_eq newJob m t hbt hrm
    rw [heq]
    exact ⟨rfl, rfl, rfl, rfl⟩

/-- Witness for C9: the race branch at a concrete state — the new job
is absent from the queue while a worker prints a 50-page job. -/
theorem race_lost_spec_witness :
    (checkForPreemption jB1
        { jobQueue := [], algorithm := Algo.SRTF,
          printers := [{ mkPrinter 1 "P1" with
                         currentJob := some { jA1 with status := .printing } }],
          updates := [] }).jobQueue = []
    ∧ (checkForPreemption jB1
        { jobQueue := [], algorithm := Algo.SRTF,
          printers := [{ mkPrinter 1 "P1" with
                         currentJob := some { jA1 with status := .printing } }],
          updates := [] }).printers
      = [{ mkPrinter 1 "P1" with currentJob := some { jA1 with status := .printing } }] :=
  ⟨(race_lost_spec jB1
      { jobQueue := [], algorithm := Algo.SRTF,
        printers := [{ mkPrinter 1 "P1" with
                       currentJob := some { jA1 with status := .printing } }],
        updates := [] } (by decide)
      ⟨{ mkPrinter 1 "P1" with currentJob := some { jA1 with status := .printing } },
        by simp, { jA1 with status := .printing }, rfl, rfl, by decide⟩).1,
   (race_lost_spec jB1
      { jobQueue := [], algorithm := Algo.SRTF,
        printers := [{ mkPrinter 1 "P1" with
                       currentJob := some { jA1 with status := .printing } }],
        updates := [] } (by decide)
      ⟨{ mkPrinter 1 "P1" with currentJob := some { jA1 with status := .printing } },
        by simp, { jA1 with status := .printing }, rfl, rfl, by decide⟩).2.1⟩

/-! ### Lemmas about dequeue selection -/

theorem extractMinRemaining_eq_none (q : List PrintJob) :
    extractMinRemaining q = none ↔ q = [] := by
  cases q with
  | nil => simp [extractMinRemaining]
  | cons a rest =>
    simp only [extractMinRemaining]
    cases extractMinRemaining rest with
    | none => simp
    | some p =>
      rcases p with ⟨mj, r⟩
      by_cases hle : a.pagesRemaining ≤ mj.pagesRemaining <;> simp [hle]

theorem extractMinRemaining_spec (q : List PrintJob) :
    ∀ j q', extractMinRemaining q = some (j, q') →
      ∃ pre post, q = pre ++ j :: post ∧ q' = pre ++ post
        ∧ (∀ k ∈ q, j.pagesRemaining ≤ k.pagesRemaining)
        ∧ (∀ k ∈ pre, j.pagesRemaining < k.pagesRemaining) := by
  induction q with
  | nil => intro j q' h; cases h
  | cons a rest ih =>
    intro j q' h
    unfold extractMinRemaining at h
    cases hrec : extractMinRemaining rest with
    | none =>
      rw [hrec] at h
      have hrest : rest = [] := (extractMinRemaining_eq_none rest).mp hrec
      simp only [Option.some.injEq, Prod.mk.injEq] at h
      obtain ⟨rfl, rfl⟩ := h
      subst hrest
      exact ⟨[], [], rfl, rfl, by simp, by simp⟩
    | some p =>
      rcases p with ⟨mj, rest'⟩
      rw [hrec] at h
      obtain ⟨pre0, post0, hd0, hr0, hmin0, hstrict0⟩ := ih mj rest' hrec
      by_cases hle : a.pagesRemaining ≤ mj.pagesRemaining
      · simp only [hle, if_true, Option.some.injEq, Prod.mk.injEq] at h
        obtain ⟨rfl, rfl⟩ := h
        refine ⟨[], rest, by simp, by simp, ?_, by simp⟩
        intro k hk
        rcases List.mem_cons.mp hk with rfl | hkm
        · exact le_refl _
        · exact le_trans hle (hmin0 k hkm)
      · simp only [hle, if_false, Option.some.injEq, Prod.mk.injEq] at h
        obtain ⟨rfl, rfl⟩ := h
        refine ⟨a :: pre0, post0, by rw [hd0]; rfl, by rw [hr0]; rfl, ?_, ?_⟩
        · intro k hk
          rcases List.mem_cons.mp hk with rfl | hkm
          · exact (not_le.mp hle).le
          · exact hmin0 k hkm
        · intro k hk
          rcases List.mem_cons.mp hk with rfl | hkm
          · exact not_le.mp hle
          · exact hstrict0 k hkm

theorem notin_of_nodup_decomp (pre post : List PrintJob) (j : PrintJob)
    (hnodup : ((pre ++ j :: post).map (fun k => k.jobId)).Nodup) :
    j.jobId ∉ (pre ++ post).map (fun k => k.jobId) := by
  rw [List.map_append, List.map_cons] at hnodup
  rw [List.map_append]
  have hperm : List.Perm
      (pre.map (fun k => k.jobId) ++ j.jobId :: post.map (fun k => k.jobId))
      (j.jobId :: (pre.map (fun k => k.jobId) ++ post.map (fun k => k.jobId))) :=
    List.perm_middle
  exact (List.nodup_cons.mp (hperm.nodup hnodup)).1

theorem getNextJob_eq_empty (pid : Nat) (m : JobManager) (h : m.jobQueue = []) :
    getNextJob pid m = (none, autoSelectAlgorithm m) := by
  unfold getNextJob
  simp only [autoSelect_jobQueue, h]

theorem getNextJob_eq_fcfs (pid : Nat) (m : JobManager) (j : PrintJob) (rest : List PrintJob)
    (h : m.jobQueue = j :: rest) (halgo : selectAlgo m.jobQueue = Algo.FCFS) :
    getNextJob pid m = (some j, sendFullUpdate { autoSelectAlgorithm m with jobQueue := rest }) := by
  have ha : (autoSelectAlgorithm m).algorithm = Algo.FCFS := by
    rw [autoSelect_algorithm, halgo]
  unfold getNextJob
  simp only [autoSelect_jobQueue, h, ha]

theorem getNextJob_eq_min (pid : Nat) (m : JobManager) (j : PrintJob) (rest : List PrintJob)
    (mj : PrintJob) (q' : List PrintJob)
    (h : m.jobQueue = j :: rest) (halgo : selectAlgo m.jobQueue ≠ Algo.FCFS)
    (hext : extractMinRemaining m.jobQueue = some (mj, q')) :
    getNextJob pid m = (some mj, sendFullUpdate { autoSelectAlgorithm m with jobQueue := q' }) := by
  rw [h] at hext
  unfold getNextJob
  cases hsel : selectAlgo m.jobQueue with
  | FCFS => exact absurd hsel halgo
  | SJF =>
    have ha : (autoSelectAlgorithm m).algorithm = Algo.SJF := by
      rw [autoSelect_algorithm, hsel]
    simp only [autoSelect_jobQueue, h, ha, hext]
  | SRTF =>
    have ha : (autoSelectAlgorithm m).algorithm = Algo.SRTF := by
      rw [autoSelect_algorithm, hsel]
    simp only [autoSelect_jobQueue, h, ha, hext]

/-- Claim C3: `get_next_job` re-evaluates the policy first; an empty
queue yields no job and an unchanged queue; otherwise exactly one job
is removed and returned — the head of the queue under FCFS, the
earliest job with minimum remaining pages under SJF or SRTF — and
(for distinct job ids) the returned job is gone from the queue. -/
theorem getNextJob_spec (pid : Nat) (m : JobManager) :
    (getNextJob pid m).2.algorithm = selectAlgo m.jobQueue
    ∧ (m.jobQueue = [] →
        (getNextJob pid m).1 = none ∧ (getNextJob pid m).2.jobQueue = m.jobQueue)
    ∧ (m.jobQueue ≠ [] →
        ∃ j pre post,
          (getNextJob pid m).1 = some j
          ∧ m.jobQueue = pre ++ j :: post
          ∧ (getNextJob pid m).2.jobQueue = pre ++ post
          ∧ (selectAlgo m.jobQueue = Algo.FCFS → pre = [])
          ∧ ((selectAlgo m.jobQueue = Algo.SJF ∨ selectAlgo m.jobQueue = Algo.SRTF) →
              (∀ k ∈ m.jobQueue, j.pagesRemaining ≤ k.pagesRemaining)
              ∧ (∀ k ∈ pre, j.pagesRemaining < k.pagesRemaining))
          ∧ ((m.jobQueue.map (fun k => k.jobId)).Nodup →
              j.jobId ∉ ((getNextJob pid m).2.jobQueue.map (fun k => k.jobId)))) := by
  by_cases hemp : m.jobQueue = []
  · rw [getNextJob_eq_empty pid m hemp]
    exact ⟨autoSelect_algorithm m, fun _ => ⟨rfl, autoSelect_jobQueue m⟩,
      fun hne => absurd hemp hne⟩
  · obtain ⟨a, rest, hq⟩ := List.exists_cons_of_ne_nil hemp
    by_cases halgo : selectAlgo m.jobQueue = Algo.FCFS
    · rw [getNextJob_eq_fcfs pid m a rest hq halgo]
      refine ⟨autoSelect_algorithm m, fun he => absurd he hemp, ?_⟩
      intro _
      refine ⟨a, [], rest, rfl, by rw [hq]; rfl, rfl, fun _ => rfl, ?_, ?_⟩
      · intro hor
        rcases hor with hc | hc
        · exact absurd (halgo.symm.trans hc) (by decide)
        · exact absurd (halgo.symm.trans hc) (by decide)
      · intro hnodup
        rw [hq] at hnodup
        exact notin_of_nodup_decomp [] rest a (by simpa using hnodup)
    · cases hext : extractMinRemaining m.jobQueue with
      | none =>
        exfalso
        exact hemp ((extractMinRemaining_eq_none m.jobQueue).mp hext)
      | some p =>
        rcases p with ⟨mj, q'⟩
        rw [getNextJob_eq_min pid m a rest mj q' hq halgo hext]
        obtain ⟨pre, post, hdecomp, hq', hmin, hstrict⟩ :=
          extractMinRemaining_spec m.jobQueue mj q' hext
        refine ⟨autoSelect_algorithm m, fun he => absurd he hemp, ?_⟩
        intro _
        refine ⟨mj, pre, post, rfl, hdecomp, hq', ?_, fun _ => ⟨hmin, hstrict⟩, ?_⟩
        · intro hc; exact absurd hc halgo
        · intro hnodup
          rw [hdecomp] at hnodup
          show mj.jobId ∉ (q'.map (fun k => k.jobId))
          rw [hq']
          exact notin_of_nodup_decomp pre post mj hnodup

/-- Witness for C3: on a two-job FCFS queue the head job is removed
and returned. -/
theorem getNextJob_spec_witness :
    ∃ j pre post,
      (getNextJob 1 { jobQueue := [jF1, jB1], algorithm := Algo.FCFS,
                      printers := [], updates := [] }).1 = some j
      ∧ ([jF1, jB1] : List PrintJob) = pre ++ j :: post
      ∧ (getNextJob 1 { jobQueue := [jF1, jB1], algorithm := Algo.FCFS,
                        printers := [], updates := [] }).2.jobQueue = pre ++ post
      ∧ (selectAlgo [jF1, jB1] = Algo.FCFS → pre = [])
      ∧ ((selectAlgo [jF1, jB1] = Algo.SJF ∨ selectAlgo [jF1, jB1] = Algo.SRTF) →
          (∀ k ∈ ([jF1, jB1] : List PrintJob), j.pagesRemaining ≤ k.pagesRemaining)
          ∧ (∀ k ∈ pre, j.pagesRemaining < k.pagesRemaining))
      ∧ ((([jF1, jB1] : List PrintJob).map (fun k => k.jobId)).Nodup →
          j.jobId ∉ ((getNextJob 1 { jobQueue := [jF1, jB1], algorithm := Algo.FCFS,
                                     printers := [], updates := [] }).2.jobQueue.map
                       (fun k => k.jobId))) :=
  (getNextJob_spec 1 { jobQueue := [jF1, jB1], algorithm := Algo.FCFS,
                       printers := [], updates := [] }).2.2 (by decide)

/-! ### Cancellation -/

/-- Claim C5 (amended): cancelling a pending job removes it from the
queue and emits an updated snapshot, but the removed job object itself
is not written (`removedPending` carries it exactly as the call
leaves it, status included); cancelling an in-flight job only sets the
holding worker's cancel flag, leaving the queue unchanged; an unknown
id only produces a log message and changes no dispatcher or job
state. -/
theorem cancel_spec (jid : Nat) (m : JobManager) :
    (∀ j, m.jobQueue.find? (fun k => k.jobId == jid) = some j →
      (cancelJob jid m).2 = CancelOutcome.removedPending j
      ∧ some (cancelJob jid m).1.jobQueue = removeJobById m.jobQueue jid
      ∧ (cancelJob jid m).1.printers = m.printers
      ∧ (cancelJob jid m).1.algorithm = m.algorithm
      ∧ (cancelJob jid m).1.updates
          = m.updates ++ [UpdateMsg.logMsg "Canceled: removed from main queue" (some jid),
                          UpdateMsg.queueSnapshot (cancelJob jid m).1.jobQueue])
    ∧ (m.jobQueue.find? (fun k => k.jobId == jid) = none →
       ∀ p, m.printers.find? (fun q =>
              match q.currentJob with
              | some k => k.jobId == jid
              | none => false) = some p →
      (cancelJob jid m).2 = CancelOutcome.signaledPrinter p.printerId
      ∧ (cancelJob jid m).1.jobQueue = m.jobQueue
      ∧ (cancelJob jid m).1.algorithm = m.algorithm
      ∧ (cancelJob jid m).1.printers
          = updatePrinter m.printers p.printerId
              (fun q => { q with cancelCurrentJob := true }))
    ∧ (m.jobQueue.find? (fun k => k.jobId == jid) = none →
       m.printers.find? (fun q =>
              match q.currentJob with
              | some k => k.jobId == jid
              | none => false) = none →
      cancelJob jid m
        = (logM m "Could not find job to cancel" (some jid), CancelOutcome.notFound)) := by
  refine ⟨?_, ?_, ?_⟩
  · intro j hfind
    have hmem : jid ∈ m.jobQueue.map (fun k => k.jobId) := by
      have h1 := List.mem_of_find?_eq_some hfind
      have h2 := List.find?_some hfind
      exact List.mem_map.mpr ⟨j, h1, by simpa using h2⟩
    obtain ⟨q', hrm⟩ := removeJobById_of_mem m.jobQueue jid hmem
    have heq : cancelJob jid m
        = (sendFullUpdate (logM { m with jobQueue := q' }
             "Canceled: removed from main queue" (some jid)),
           CancelOutcome.removedPending j) := by
      unfold cancelJob
      rw [hfind]
      simp only [hrm, Option.getD_some]
    rw [heq]
    refine ⟨rfl, ?_, rfl, rfl, ?_⟩
    · rw [hrm]
      rfl
    · simp [sendFullUpdate, logM, sendUpdate]
  · intro hfq p hfp
    have heq : cancelJob jid m
        = (logM { m with printers := updatePrinter m.printers p.printerId (fun q => { q with cancelCurrentJob := true }) } "Signaling printer to cancel current job" (some jid),
           CancelOutcome.signaledPrinter p.printerId) := by
      unfold cancelJob
      rw [hfq, hfp]
    rw [heq]
    exact ⟨rfl, rfl, rfl, rfl⟩
  · intro hfq hfp
    unfold cancelJob
    rw [hfq, hfp]

/-- Counterexample to C5 as stated: cancelling pending job 111 removes
it from the queue, but the removed job's state is still Queued — it is
never marked Canceled. -/
theorem cancel_pending_not_marked_canceled :
    (cancelJob 111 { jobQueue := [jF1], algorithm := Algo.FCFS,
                     printers := [], updates := [] }).2
      = CancelOutcome.removedPending jF1
    ∧ jF1.status = JobStatus.queued
    ∧ jF1.status ≠ JobStatus.canceled := by
  decide

/-- A printer currently printing job 101, and a manager state holding
only that printer with an empty pending queue. -/
def pHold : Printer :=
  { mkPrinter 1 "P1" with currentJob := some { jA1 with status := JobStatus.printing } }

/-- Manager state for the in-flight cancellation scenario. -/
def mHold : JobManager :=
  { jobQueue := [], algorithm := Algo.FCFS, printers := [pHold], updates := [] }

/-- Witness for C5 (amended): cancelling job 101 while printer 1 holds
it sets that printer's cancel flag and leaves the queue unchanged. -/
theorem cancel_spec_witness :
    (cancelJob 101 mHold).2 = CancelOutcome.signaledPrinter 1
    ∧ (cancelJob 101 mHold).1.jobQueue = mHold.jobQueue :=
  ⟨((cancel_spec 101 mHold).2.1 rfl pHold (by decide)).1,
   ((cancel_spec 101 mHold).2.1 rfl pHold (by decide)).2.1⟩

/-! ### Worker checkpoint -/

theorem findPrinter_id (m : JobManager) (pid : Nat) (p : Printer)
    (h : findPrinter m pid = some p) : p.printerId = pid := by
  have := List.find?_some h
  simpa using this

theorem find?_updatePrinter (ps : List Printer) (pid : Nat) (p p1 : Printer)
    (h : ps.find? (fun q => q.printerId == pid) = some p)
    (hid : p1.printerId = pid) :
    (updatePrinter ps pid (fun _ => p1)).find? (fun q => q.printerId == pid) = some p1 := by
  induction ps with
  | nil => cases h
  | cons q rest ih =>
    by_cases hq : q.printerId = pid
    · have hupd : updatePrinter (q :: rest) pid (fun _ => p1)
          = p1 :: updatePrinter rest pid (fun _ => p1) := by
        simp [updatePrinter, hq]
      rw [hupd]
      exact List.find?_cons_of_pos _ (by simp [hid])
    · have hp : ¬ ((fun r : Printer => r.printerId == pid) q = true) := by simp [hq]
      have h' := h
      rw [List.find?_cons_of_neg (p := fun r : Printer => r.printerId == pid) (a := q) rest hp] at h'
      have hupd : updatePrinter (q :: rest) pid (fun _ => p1)
          = q :: updatePrinter rest pid (fun _ => p1) := by
        simp [updatePrinter, hq]
      rw [hupd,
        List.find?_cons_of_neg (p := fun r : Printer => r.printerId == pid) (a := q) _ hp]
      exact ih h'

theorem findPrinter_setPrinter (m : JobManager) (pid : Nat) (p p1 : Printer)
    (h : findPrinter m pid = some p) (hid : p1.printerId = pid) :
    findPrinter (setPrinter m p1) pid = some p1 := by
  unfold findPrinter setPrinter at *
  dsimp only
  rw [hid]
  exact find?_updatePrinter m.printers pid p p1 h hid

/-- Claim C6: at the checkpoint after a completed work unit, cancel
has priority (detach, clear the cancel flag, no re-queue and no
completion); otherwise a pending preemption payload re-queues the
decremented job at the head as Queued (Preempted) and attaches the
payload as Printing, with no completion check; only with neither
signal and the page total reached is the job completed and detached;
otherwise the decremented job stays attached. -/
theorem checkpoint_priority_spec (pid : Nat) (m : JobManager) (p : Printer) (job : PrintJob)
    (hfind : findPrinter m pid = some p)
    (hjob : p.currentJob = some job)
    (hpause : p.isPaused = false)
    (hshut : p.shutdownFlag = false) :
    (p.cancelCurrentJob = true →
      (runCycleFinish pid m).2
        = CycleOutcome.canceledJob
            { job with progress := job.progress + 1,
                       pagesRemaining := job.pagesRemaining - 1,
                       status := JobStatus.canceled }
      ∧ (runCycleFinish pid m).1.jobQueue = m.jobQueue
      ∧ (runCycleFinish pid m).1.printers
          = updatePrinter m.printers p.printerId
              (fun _ => { p with currentJob := none, cancelCurrentJob := false }))
    ∧ (p.cancelCurrentJob = false → ∀ np, p.preemptWithJob = some np →
      (runCycleFinish pid m).2
        = CycleOutcome.preemptedJob
            { job with progress := job.progress + 1,
                       pagesRemaining := job.pagesRemaining - 1,
                       status := JobStatus.queuedPreempted }
            { np with status := JobStatus.printing }
      ∧ (runCycleFinish pid m).1.jobQueue
          = { job with progress := job.progress + 1,
                       pagesRemaining := job.pagesRemaining - 1,
                       status := JobStatus.queuedPreempted } :: m.jobQueue
      ∧ (runCycleFinish pid m).1.printers
          = updatePrinter m.printers p.printerId
              (fun _ => { p with currentJob := some { np with status := JobStatus.printing },
                                 preemptWithJob := none }))
    ∧ (p.cancelCurrentJob = false → p.preemptWithJob = none →
        job.pages ≤ job.progress + 1 →
      (runCycleFinish pid m).2
        = CycleOutcome.completedJob
            { job with progress := job.progress + 1,
                       pagesRemaining := job.pagesRemaining - 1,
                       status := JobStatus.completed }
      ∧ (runCycleFinish pid m).1.jobQueue = m.jobQueue
      ∧ (runCycleFinish pid m).1.printers
          = updatePrinter m.printers p.printerId (fun _ => { p with currentJob := none }))
    ∧ (p.cancelCurrentJob = false → p.preemptWithJob = none →
        job.progress + 1 < job.pages →
      (runCycleFinish pid m).2 = CycleOutcome.continued
      ∧ (runCycleFinish pid m).1.jobQueue = m.jobQueue
      ∧ (runCycleFinish pid m).1.printers
          = updatePrinter m.printers p.printerId
              (fun _ => { p with currentJob := some { job with progress := job.progress + 1, pagesRemaining := job.pagesRemaining - 1 } })) := by
  have hbase : runCycleFinish pid m
      = (match p.currentJob with
         | none => (m, CycleOutcome.noJob)
         | some job =>
           let job1 := { job with progress := job.progress + 1,
                                  pagesRemaining := job.pagesRemaining - 1 }
           if p.cancelCurrentJob then
             let p1 := { p with currentJob := none, cancelCurrentJob := false }
             (sendStatusUpdate p1 (setPrinter (logM m "Canceled" (some job.jobId)) p1),
              CycleOutcome.canceledJob { job1 with status := JobStatus.canceled })
           else
             match p.preemptWithJob with
             | some np =>
               let oldJ := { job1 with status := JobStatus.queuedPreempted }
               let m1 := addJobToQueue oldJ true (logM m "PREEMPTED" (some np.jobId))
               let p1 := { p with currentJob := some { np with status := JobStatus.printing },
                                  preemptWithJob := none }
               (setPrinter m1 p1, CycleOutcome.preemptedJob oldJ { np with status := JobStatus.printing })
             | none =>
               if job1.pages ≤ job1.progress then
                 let p1 := { p with currentJob := none }
                 (sendStatusUpdate p1 (setPrinter (logM m "Finished" (some job.jobId)) p1),
                  CycleOutcome.completedJob { job1 with status := JobStatus.completed })
               else
                 (setPrinter m { p with currentJob := some job1 }, CycleOutcome.continued)) := by
    unfold runCycleFinish
    rw [hfind]
    simp only [hpause, hshut, Bool.or_self, Bool.false_eq_true, if_false]
  rw [hbase, hjob]
  refine ⟨?_, ?_, ?_, ?_⟩
  · intro hc
    simp only [hc, if_true]
    refine ⟨?_, ?_, ?_⟩ <;> trivial
  · intro hc np hnp
    simp only [hc, Bool.false_eq_true, if_false, hnp]
    refine ⟨?_, ?_, ?_⟩
    · trivial
    · exact addJobToQueue_queue_preempted _ _
    · show (setPrinter (addJobToQueue _ true (logM m "PREEMPTED" (some np.jobId))) _).printers = _
      unfold setPrinter
      rw [addJobToQueue_printers_preempted]
      rfl
  · intro hc hnp hdone
    simp only [hc, Bool.false_eq_true, if_false, hnp]
    rw [if_pos hdone]
    refine ⟨?_, ?_, ?_⟩ <;> trivial
  · intro hc hnp hlt
    simp only [hc, Bool.false_eq_true, if_false, hnp]
    rw [if_neg (not_le.mpr hlt)]
    refine ⟨?_, ?_, ?_⟩ <;> trivial

/-- Job 101 as it sits on a printer: marked Printing. -/
def jobPr : PrintJob := { jA1 with status := JobStatus.printing }

/-- Printer 1 printing job 101 with a pending cancel request. -/
def pCancel : Printer :=
  { mkPrinter 1 "P1" with currentJob := some jobPr, cancelCurrentJob := true }

/-- Manager state for the cancel-checkpoint scenario. -/
def mCancel : JobManager :=
  { jobQueue := [], algorithm := Algo.FCFS, printers := [pCancel], updates := [] }

/-- Witness for C6: with the cancel flag set, the checkpoint cancels
the decremented job and leaves the queue alone. -/
theorem checkpoint_priority_spec_witness :
    (runCycleFinish 1 mCancel).2
      = CycleOutcome.canceledJob
          { jobPr with progress := jobPr.progress + 1,
                       pagesRemaining := jobPr.pagesRemaining - 1,
                       status := JobStatus.canceled }
    ∧ (runCycleFinish 1 mCancel).1.jobQueue = mCancel.jobQueue :=
  ⟨((checkpoint_priority_spec 1 mCancel pCancel jobPr rfl rfl rfl rfl).1 rfl).1,
   ((checkpoint_priority_spec 1 mCancel pCancel jobPr rfl rfl rfl rfl).1 rfl).2.1⟩

/-- Claim C7: if pause or shutdown was requested during the simulated
work-unit delay, the post-delay part of the cycle returns the whole
system state untouched (no page counted, no checkpoint bookkeeping);
an uninterrupted unit advances the worked job's progress by exactly
one page and its remaining count down by one. -/
theorem interrupted_unit_spec (pid : Nat) (m : JobManager) (p : Printer)
    (hfind : findPrinter m pid = some p) :
    ((p.isPaused = true ∨ p.shutdownFlag = true) →
      runCycleFinish pid m = (m, CycleOutcome.interrupted))
    ∧ (p.isPaused = false → p.shutdownFlag = false →
        ∀ job, p.currentJob = some job →
        ∃ j1, workedJob pid (runCycleFinish pid m) = some j1
          ∧ j1.progress = job.progress + 1
          ∧ j1.pagesRemaining = job.pagesRemaining - 1
          ∧ j1.pages = job.pages) := by
  constructor
  · intro hor
    unfold runCycleFinish
    rw [hfind]
    rcases hor with h | h
    · simp [h]
    · simp [h]
  · intro hpause hshut job hjob
    have hbase : runCycleFinish pid m
        = (match p.currentJob with
           | none => (m, CycleOutcome.noJob)
           | some job =>
             let job1 := { job with progress := job.progress + 1,
                                    pagesRemaining := job.pagesRemaining - 1 }
             if p.cancelCurrentJob then
               let p1 := { p with currentJob := none, cancelCurrentJob := false }
               (sendStatusUpdate p1 (setPrinter (logM m "Canceled" (some job.jobId)) p1),
                CycleOutcome.canceledJob { job1 with status := JobStatus.canceled })
             else
               match p.preemptWithJob with
               | some np =>
                 let oldJ := { job1 with status := JobStatus.queuedPreempted }
                 let m1 := addJobToQueue oldJ true (logM m "PREEMPTED" (some np.jobId))
                 let p1 := { p with currentJob := some { np with status := JobStatus.printing },
                                    preemptWithJob := none }
                 (setPrinter m1 p1,
                  CycleOutcome.preemptedJob oldJ { np with status := JobStatus.printing })
               | none =>
                 if job1.pages ≤ job1.progress then
                   let p1 := { p with currentJob := none }
                   (sendStatusUpdate p1 (setPrinter (logM m "Finished" (some job.jobId)) p1),
                    CycleOutcome.completedJob { job1 with status := JobStatus.completed })
                 else
                   (setPrinter m { p with currentJob := some job1 },
                    CycleOutcome.continued)) := by
      unfold runCycleFinish
      rw [hfind]
      simp only [hpause, hshut, Bool.or_self, Bool.false_eq_true, if_false]
    rw [hbase, hjob]
    by_cases hc : p.cancelCurrentJob
    · simp only [hc, if_true]
      exact ⟨_, rfl, rfl, rfl, rfl⟩
    · cases hnp : p.preemptWithJob with
      | some np =>
        simp only [hc, Bool.false_eq_true, if_false, hnp]
        exact ⟨_, rfl, rfl, rfl, rfl⟩
      | none =>
        simp only [hc, Bool.false_eq_true, if_false, hnp]
        by_cases hdone : job.pages ≤ job.progress + 1
        · rw [if_pos hdone]
          exact ⟨_, rfl, rfl, rfl, rfl⟩
        · rw [if_neg hdone]
          refine ⟨{ job with progress := job.progress + 1,
                             pagesRemaining := job.pagesRemaining - 1 }, ?_, rfl, rfl, rfl⟩
          unfold workedJob
          rw [findPrinter_setPrinter m pid p
            { p with currentJob := some { job with progress := job.progress + 1, pagesRemaining := job.pagesRemaining - 1 }, preemptWithJob := none, cancelCurrentJob := false }
            hfind (findPrinter_id m pid p hfind)]
          rfl

/-- Printer 1 printing job 101 but paused during the delay. -/
def pHoldPaused : Printer := { pHold with isPaused := true }

/-- Manager state for the interrupted-unit scenario. -/
def mHoldPaused : JobManager :=
  { jobQueue := [], algorithm := Algo.FCFS, printers := [pHoldPaused], updates := [] }

/-- Witness for C7: a pause observed after the delay leaves the state
untouched. -/
theorem interrupted_unit_spec_witness :
    runCycleFinish 1 mHoldPaused = (mHoldPaused, CycleOutcome.interrupted) :=
  (interrupted_unit_spec 1 mHoldPaused pHoldPaused rfl).1 (Or.inl rfl)

/-! ### Pause toggling -/

theorem togglePausePr_id (p : Printer) :
    (togglePausePr p).printerId = p.printerId := by
  by_cases h : p.isPaused <;> simp [togglePausePr, h]

theorem togglePause_eq (pid : Nat) (m : JobManager) (p : Printer)
    (hfind : findPrinter m pid = some p) :
    togglePause pid m
      = sendStatusUpdate (togglePausePr p)
          (logM (setPrinter m (togglePausePr p))
            (if p.isPaused then "Resumed" else "Paused") none) := by
  unfold togglePause
  rw [hfind]

theorem togglePausePr_flag (p : Printer) :
    (togglePausePr (togglePausePr p)).isPaused = p.isPaused := by
  by_cases h : p.isPaused <;> simp [togglePausePr, h]

theorem togglePausePr_restore (p : Printer)
    (hcons : ∀ j, p.currentJob = some j →
      j.status = (if p.isPaused then JobStatus.paused else JobStatus.printing)) :
    togglePausePr (togglePausePr p) = p := by
  obtain ⟨pid0, name0, cur0, pau0, shut0, pre0, can0⟩ := p
  cases pau0
  · cases cur0 with
    | none => simp [togglePausePr]
    | some j =>
      have hst := hcons j rfl
      simp at hst
      simp only [togglePausePr, Bool.false_eq_true, if_false, if_true, Option.map_some]
      rw [← hst]
      simp
  · cases cur0 with
    | none => simp [togglePausePr]
    | some j =>
      have hst := hcons j rfl
      simp at hst
      simp only [togglePausePr, Bool.false_eq_true, if_false, if_true, Option.map_some]
      rw [← hst]
      simp

/-- Claim C10 (amended): toggling pause twice always restores the
worker's pause flag, and restores the attached job's status provided
the job's status agrees with the flag before the first toggle (Paused
when the flag is set, Printing when it is clear) — in that case the
whole printer state is restored. -/
theorem togglePause_double_restores (pid : Nat) (m : JobManager) (p : Printer)
    (hfind : findPrinter m pid = some p) :
    ∃ p2, findPrinter (togglePause pid (togglePause pid m)) pid = some p2
      ∧ p2.isPaused = p.isPaused
      ∧ ((∀ j, p.currentJob = some j →
            j.status = (if p.isPaused then JobStatus.paused else JobStatus.printing)) →
          p2 = p) := by
  have hpid : p.printerId = pid := findPrinter_id m pid p hfind
  have e1 := togglePause_eq pid m p hfind
  have hf1 : findPrinter (togglePause pid m) pid = some (togglePausePr p) := by
    rw [e1]
    exact findPrinter_setPrinter m pid p (togglePausePr p) hfind
      ((togglePausePr_id p).trans hpid)
  have e2 := togglePause_eq pid (togglePause pid m) (togglePausePr p) hf1
  have hf2 : findPrinter (togglePause pid (togglePause pid m)) pid
      = some (togglePausePr (togglePausePr p)) := by
    rw [e2]
    exact findPrinter_setPrinter (togglePause pid m) pid (togglePausePr p)
      (togglePausePr (togglePausePr p)) hf1
      ((togglePausePr_id (togglePausePr p)).trans ((togglePausePr_id p).trans hpid))
  exact ⟨togglePausePr (togglePausePr p), hf2, togglePausePr_flag p,
    fun hcons => togglePausePr_restore p hcons⟩

/-- A printer whose pause flag is set while its attached job still
says Printing — reachable when a toggle lands between job assignment
and the worker's own status write. -/
def pMismatch : Printer :=
  { mkPrinter 1 "P1" with isPaused := true, currentJob := some jobPr }

/-- Manager state holding the mismatched printer. -/
def mMismatch : JobManager :=
  { jobQueue := [], algorithm := Algo.FCFS, printers := [pMismatch], updates := [] }

/-- Counterexample to C10 as stated: on a worker with the pause flag
set but the attached job still Printing, two toggles leave the flag
restored but the job Paused instead of its prior Printing. -/
theorem togglePause_double_not_restoring :
    pMismatch.currentJob.map (fun j => j.status) = some JobStatus.printing
    ∧ ((findPrinter (togglePause 1 (togglePause 1 mMismatch)) 1).bind
         (fun p => p.currentJob)).map (fun j => j.status)
        = some JobStatus.paused
    ∧ JobStatus.paused ≠ JobStatus.printing := by
  decide

/-- A consistent printer: not paused, attached job Printing. -/
def pConsistent : Printer := { mkPrinter 1 "P1" with currentJob := some jobPr }

/-- Manager state holding the consistent printer. -/
def mConsistent : JobManager :=
  { jobQueue := [], algorithm := Algo.FCFS, printers := [pConsistent], updates := [] }

/-- Witness for C10 (amended): on the consistent printer, two toggles
restore the printer state exactly. -/
theorem togglePause_double_restores_witness :
    findPrinter (togglePause 1 (togglePause 1 mConsistent)) 1 = some pConsistent := by
  obtain ⟨p2, hf, hflag, hrest⟩ := togglePause_double_restores 1 mConsistent pConsistent rfl
  have hp2 : p2 = pConsistent := hrest (by
    intro j hj
    have hjj : jobPr = j := Option.some.inj hj
    subst hjj
    decide)
  rw [hf, hp2]
